import Mathlib

/-!
Verification of the hono-cron content bot against its specification.

The development shallowly embeds the repository's TypeScript sources:
  - `src/src/cron/manager.ts`      — the interval scheduler (`CronManager`);
  - `src/unnamed/part_001`         — the Twitter/Telegram publisher
    (`postToTwitter`, `sendTelegramMessage`, `postTweet`, `parseTweet`);
  - `src/unnamed/part_002`         — the HackerNews story selection with its
    24-hour dedup cache (`checkAndResetCache`, `markStoryAsPosted`,
    `fetchTopStory`).

Network calls are abstracted as explicit oracles (functions passed as
arguments): `fetch : Nat → Option HNStory` stands for the item-detail
endpoint, Bool arguments stand for "the HTTP call succeeded".  Timestamps
are `Int` milliseconds (the value of `Date.now()`), so that JavaScript
subtraction is ordinary integer subtraction.
-/

set_option maxRecDepth 8000

namespace HonoCron

/-! ### Scheduler — src/src/cron/manager.ts

A `CronJob` is the record the manager keeps per registered job.  The
handler is an async effect; its only behaviour visible to the manager is
whether the `await job.handler(env)` call throws, which we model by an
oracle `throws : String → Bool` keyed by job name (each registered name is
distinct in the repository). -/

structure CronJob where
  name : String
  interval : Int
  lastRun : Int
deriving DecidableEq

/-- Body of the `for (const job of this.jobs)` loop of
`CronManager.executeDueJobs`: if `now - job.lastRun >= job.interval` the
handler runs; `job.lastRun = now` executes only after a normal return,
because it sits inside the `try` block before the `catch`. -/
def runJob (now : Int) (throws : String → Bool) (j : CronJob) : CronJob :=
  if now - j.lastRun ≥ j.interval then
    if throws j.name then j else CronJob.mk j.name j.interval now
  else j

/-- `CronManager.executeDueJobs`: every registered job is considered in
order with the single `now = Date.now()` sampled once at entry. -/
def executeDueJobs (now : Int) (throws : String → Bool) (jobs : List CronJob) :
    List CronJob :=
  jobs.map (runJob now throws)

/-! ### HackerNews story selection — src/unnamed/part_002

The module-level mutable state (`postedStories`, `lastResetTimestamp`) is
bundled into `CacheState` and threaded explicitly. -/

structure HNStory where
  id : Nat
  title : String
  url : String
  kids : List Nat
deriving DecidableEq

structure CacheState where
  postedStories : List Nat
  lastResetTimestamp : Int
deriving DecidableEq

/-- `checkAndResetCache`: clear the cache when more than a day
(86400000 ms) has passed since the last reset. -/
def checkAndResetCache (now : Int) (st : CacheState) : CacheState :=
  if now - st.lastResetTimestamp > 86400000 then CacheState.mk [] now else st

/-- `markStoryAsPosted`: push the id unless it is already present. -/
def markStoryAsPosted (posted : List Nat) (storyId : Nat) : List Nat :=
  if storyId ∈ posted then posted else posted ++ [storyId]

/-- The validity test `story && story.url && story.kids &&
story.kids.length > 0` of `fetchTopStory` (the `story` null check is the
`Option` layer; a missing or empty `kids` array and an empty `url` are
both falsy/zero-length). -/
def storyValid (s : HNStory) : Bool :=
  s.url ≠ "" && !s.kids.isEmpty

/-- First scanning loop of `fetchTopStory` (lines 111–126): walk the id
list, skip ids already in `postedStories`, fetch the rest and return the
first valid story together with the id it was fetched under. -/
def scanFirst (fetch : Nat → Option HNStory) (posted : List Nat) :
    List Nat → Option (Nat × HNStory)
  | [] => none
  | storyId :: rest =>
    if storyId ∈ posted then scanFirst fetch posted rest
    else
      match fetch storyId with
      | some story =>
        if storyValid story then some (storyId, story)
        else scanFirst fetch posted rest
      | none => scanFirst fetch posted rest

/-- Second scanning loop of `fetchTopStory` (lines 135–142): same walk
but with no dedup filtering. -/
def scanSecond (fetch : Nat → Option HNStory) :
    List Nat → Option (Nat × HNStory)
  | [] => none
  | storyId :: rest =>
    match fetch storyId with
    | some story =>
      if storyValid story then some (storyId, story)
      else scanSecond fetch rest
    | none => scanSecond fetch rest

/-- `fetchTopStory` (lines 100–150).  `topStoryIds` is the decoded reply
of the trending-index endpoint; the `throw` on an empty list is caught by
the surrounding `try`, producing `null` (state mutations done before the
throw persist).  The two loops bound the scan by `Math.min(30, length)`
resp. `Math.min(10, length)`, i.e. `List.take`. -/
def fetchTopStory (fetch : Nat → Option HNStory) (now : Int)
    (st : CacheState) (topStoryIds : List Nat) : Option HNStory × CacheState :=
  if topStoryIds.isEmpty then (none, checkAndResetCache now st)
  else
    match scanFirst fetch (checkAndResetCache now st).postedStories
        (topStoryIds.take 30) with
    | some (storyId, story) =>
      (some story,
        CacheState.mk
          (markStoryAsPosted (checkAndResetCache now st).postedStories storyId)
          (checkAndResetCache now st).lastResetTimestamp)
    | none =>
      if (checkAndResetCache now st).postedStories.isEmpty then
        (none, checkAndResetCache now st)
      else
        match scanSecond fetch (topStoryIds.take 10) with
        | some (storyId, story) =>
          (some story,
            CacheState.mk (markStoryAsPosted [] storyId)
              (checkAndResetCache now st).lastResetTimestamp)
        | none =>
          (none, CacheState.mk [] (checkAndResetCache now st).lastResetTimestamp)

/-- Control-flow predicate: the exhaustion fallback of `fetchTopStory`
(the `postedStories = []` clear at line 132 followed by the unfiltered
re-scan) executes exactly when the id list was non-empty, the first loop
fell through without returning, and `postedStories.length > 0`. -/
def fallbackTaken (fetch : Nat → Option HNStory) (now : Int)
    (st : CacheState) (topStoryIds : List Nat) : Bool :=
  !topStoryIds.isEmpty &&
    (scanFirst fetch (checkAndResetCache now st).postedStories
      (topStoryIds.take 30)).isNone &&
    !(checkAndResetCache now st).postedStories.isEmpty

/-- The condition claimed (C3) to be equivalent to taking the fallback:
every scanned id was filtered out by the dedup set, and the set is
non-empty. -/
def allScannedFiltered (posted topStoryIds : List Nat) : Bool :=
  (topStoryIds.take 30).all (fun i => decide (i ∈ posted)) && !posted.isEmpty

/-! #### Helper lemmas for the scanning loops -/

theorem scanFirst_eq_none_iff (fetch : Nat → Option HNStory)
    (posted : List Nat) (ids : List Nat) :
    scanFirst fetch posted ids = none ↔
      ∀ storyId ∈ ids, storyId ∈ posted ∨
        ∀ s, fetch storyId = some s → storyValid s = false := by
  induction ids with
  | nil => simp [scanFirst]
  | cons i rest ih =>
    by_cases hmem : i ∈ posted
    · simp only [scanFirst, if_pos hmem, ih]
      constructor
      · intro h storyId hs
        rcases List.mem_cons.mp hs with h1 | h1
        · exact Or.inl (h1 ▸ hmem)
        · exact h storyId h1
      · intro h storyId hs
        exact h storyId (List.mem_cons_of_mem _ hs)
    · cases hf : fetch i with
      | none =>
        simp only [scanFirst, if_neg hmem, hf, ih]
        constructor
        · intro h storyId hs
          rcases List.mem_cons.mp hs with h1 | h1
          · subst h1
            exact Or.inr (fun s hsome => by rw [hf] at hsome; cases hsome)
          · exact h storyId h1
        · intro h storyId hs
          exact h storyId (List.mem_cons_of_mem _ hs)
      | some story =>
        by_cases hv : storyValid story = true
        · simp only [scanFirst, if_neg hmem, hf, hv, if_pos]
          constructor
          · intro h; cases h
          · intro h
            rcases h i (List.mem_cons_self i rest) with h1 | h1
            · exact absurd h1 hmem
            · exact absurd hv (by simp [h1 story hf])
        · simp only [scanFirst, if_neg hmem, hf, if_neg hv, ih]
          constructor
          · intro h storyId hs
            rcases List.mem_cons.mp hs with h1 | h1
            · subst h1
              refine Or.inr (fun s hsome => ?_)
              rw [hf] at hsome
              cases hsome
              simpa using hv
            · exact h storyId h1
          · intro h storyId hs
            exact h storyId (List.mem_cons_of_mem _ hs)

theorem scanFirst_not_posted (fetch : Nat → Option HNStory)
    (posted ids : List Nat) (storyId : Nat) (s : HNStory)
    (h : scanFirst fetch posted ids = some (storyId, s)) :
    storyId ∉ posted := by
  induction ids with
  | nil => simp [scanFirst] at h
  | cons i rest ih =>
    by_cases hmem : i ∈ posted
    · rw [scanFirst, if_pos hmem] at h
      exact ih h
    · cases hf : fetch i with
      | none =>
        rw [scanFirst, if_neg hmem] at h
        simp only [hf] at h
        exact ih h
      | some story =>
        rw [scanFirst, if_neg hmem] at h
        simp only [hf] at h
        by_cases hv : storyValid story = true
        · rw [if_pos hv] at h
          cases h
          exact hmem
        · rw [if_neg hv] at h
          exact ih h

theorem scanFirst_fetch_eq (fetch : Nat → Option HNStory)
    (posted ids : List Nat) (storyId : Nat) (s : HNStory)
    (h : scanFirst fetch posted ids = some (storyId, s)) :
    fetch storyId = some s ∧ storyValid s = true := by
  induction ids with
  | nil => simp [scanFirst] at h
  | cons i rest ih =>
    by_cases hmem : i ∈ posted
    · rw [scanFirst, if_pos hmem] at h
      exact ih h
    · cases hf : fetch i with
      | none =>
        rw [scanFirst, if_neg hmem] at h
        simp only [hf] at h
        exact ih h
      | some story =>
        rw [scanFirst, if_neg hmem] at h
        simp only [hf] at h
        by_cases hv : storyValid story = true
        · rw [if_pos hv] at h
          cases h
          exact ⟨hf, hv⟩
        · rw [if_neg hv] at h
          exact ih h

/-! ### Test fixtures for the scheduler and story-selection claims -/

/-- A story with an empty url and no kids: fetched, but invalid. -/
def storyNoUrl : HNStory := HNStory.mk 5 "title" "" []

/-- An oracle knowing only the invalid story 5. -/
def fetchC3 : Nat → Option HNStory :=
  fun i => if i = 5 then some storyNoUrl else none

/-- A valid story with id 3. -/
def storyW : HNStory := HNStory.mk 3 "title" "https://example.com" [11]

/-- An id-consistent oracle knowing only the valid story 3. -/
def fetchW : Nat → Option HNStory :=
  fun i => if i = 3 then some (HNStory.mk 3 "title" "https://example.com" [11])
           else none

/-! ### Claim C1 — scheduler advances `lastRun` when the handler settles -/

/-- Claim C1 is false on the code: `job.lastRun = now` sits inside the
`try` block after `await job.handler(env)`, so a handler that throws
leaves `lastRun` unchanged.  Concretely: a job with interval 10 and
`lastRun = 0` is due at `now = 10`; its handler throws; afterwards
`lastRun` is still 0, not the tick time 10 the claim requires. -/
theorem claim_c1_counterexample :
    ((10 : Int) - 0 ≥ 10) ∧
    executeDueJobs 10 (fun _ => true) [CronJob.mk "job" 10 0] =
      [CronJob.mk "job" 10 0] ∧
    (executeDueJobs 10 (fun _ => true) [CronJob.mk "job" 10 0]).map
        CronJob.lastRun ≠ [10] := by
  decide

/-- Claim C1 (amended): on a scheduler tick at time `now`, a registered
job with `now - lastRun >= interval` has its handler invoked; `lastRun`
is advanced to the tick time only when the handler returns normally — when
the handler throws, `lastRun` is left unchanged, so a failing job is
retried on the very next tick rather than waiting out its interval. -/
theorem claim_c1_amended (now : Int) (throws : String → Bool)
    (jobs : List CronJob) (j : CronJob) (i : Nat)
    (hj : jobs[i]? = some j) (hdue : now - j.lastRun ≥ j.interval) :
    (executeDueJobs now throws jobs)[i]? =
      some (if throws j.name then j else CronJob.mk j.name j.interval now) := by
  unfold executeDueJobs
  rw [List.getElem?_map, hj]
  show some (runJob now throws j) = _
  unfold runJob
  rw [if_pos hdue]

theorem claim_c1_witness :
    ([CronJob.mk "job" 10 0][0]? = some (CronJob.mk "job" 10 0)) ∧
    ((10 : Int) - 0 ≥ 10) ∧
    (executeDueJobs 10 (fun _ => false) [CronJob.mk "job" 10 0])[0]? =
      some (CronJob.mk "job" 10 10) :=
  ⟨by decide, by decide, by
    simpa using claim_c1_amended 10 (fun _ => false) [CronJob.mk "job" 10 0]
      (CronJob.mk "job" 10 0) 0 (by decide) (by decide)⟩

/-! ### Claim C3 — when the exhaustion fallback runs -/

/-- Claim C3 is false on the code: the fallback is also taken when some
scanned id was **not** in the dedup set but its story failed the validity
test.  Concretely: dedup set `[7]`, candidate list `[5]`, story 5 exists
but has no url and no kids.  The fallback runs even though id 5 was never
filtered out by the dedup set. -/
theorem claim_c3_counterexample :
    fallbackTaken fetchC3 0 (CacheState.mk [7] 0) [5] = true ∧
    allScannedFiltered (checkAndResetCache 0 (CacheState.mk [7] 0)).postedStories
      [5] = false := by
  decide

/-- Claim C3 (amended): the fallback path (clear the dedup set, re-scan
the first 10 ids unfiltered) is taken exactly when the candidate list is
non-empty, the first pass produced no story — that is, every scanned id
was either already in the dedup set or did not yield a valid story — and
the dedup set is non-empty. -/
theorem claim_c3_amended (fetch : Nat → Option HNStory) (now : Int)
    (st : CacheState) (topStoryIds : List Nat) :
    fallbackTaken fetch now st topStoryIds = true ↔
      topStoryIds ≠ [] ∧
      (∀ storyId ∈ topStoryIds.take 30,
        storyId ∈ (checkAndResetCache now st).postedStories ∨
          ∀ s, fetch storyId = some s → storyValid s = false) ∧
      (checkAndResetCache now st).postedStories ≠ [] := by
  unfold fallbackTaken
  rw [Bool.and_eq_true, Bool.and_eq_true]
  rw [Option.isNone_iff_eq_none, scanFirst_eq_none_iff]
  simp [and_assoc]

/-! ### Claim C5 — the first pass respects the dedup set -/

/-- Claim C5: the dedup-filtered first pass never returns a story whose
id was in the dedup set at the start of the scan.  If the item oracle is
id-consistent (the detail endpoint answers with the item carrying the
requested id, as the external index guarantees), the returned story's id
equals the scanned id and that id is not in `posted`. -/
theorem claim_c5_first_pass_respects_dedup (fetch : Nat → Option HNStory)
    (posted ids : List Nat) (storyId : Nat) (s : HNStory)
    (hfetch : ∀ i t, fetch i = some t → t.id = i)
    (h : scanFirst fetch posted ids = some (storyId, s)) :
    s.id = storyId ∧ storyId ∉ posted :=
  ⟨hfetch storyId s (scanFirst_fetch_eq fetch posted ids storyId s h).1,
    scanFirst_not_posted fetch posted ids storyId s h⟩

theorem claim_c5_witness :
    scanFirst fetchW [7] [3] = some (3, storyW) ∧
    storyW.id = 3 ∧ 3 ∉ ([7] : List Nat) := by
  refine ⟨by decide, ?_⟩
  refine claim_c5_first_pass_respects_dedup fetchW [7] [3] 3 storyW ?_ (by decide)
  intro i t h
  unfold fetchW at h
  split at h
  · next hi =>
    subst hi
    cases h
    rfl
  · cases h

/-! ### Claim C6 — the 24h window invariant -/

/-- Claim C6: every selection first runs `checkAndResetCache`; after the
check, `now - windowStart <= 24h` (86400000 ms) holds, and a selection at
`windowStart + 24h + 1ms` behaves exactly as if run on an empty dedup set
whose window starts now. -/
theorem claim_c6_window_invariant (fetch : Nat → Option HNStory) (now : Int)
    (st : CacheState) (topStoryIds : List Nat) :
    now - (checkAndResetCache now st).lastResetTimestamp ≤ 86400000 ∧
    (checkAndResetCache (st.lastResetTimestamp + 86400001) st).postedStories =
      [] ∧
    fetchTopStory fetch (st.lastResetTimestamp + 86400001) st topStoryIds =
      fetchTopStory fetch (st.lastResetTimestamp + 86400001)
        (CacheState.mk [] (st.lastResetTimestamp + 86400001)) topStoryIds := by
  have h1 : checkAndResetCache (st.lastResetTimestamp + 86400001) st =
      CacheState.mk [] (st.lastResetTimestamp + 86400001) := by
    unfold checkAndResetCache
    rw [if_pos (by omega)]
  have h2 : checkAndResetCache (st.lastResetTimestamp + 86400001)
      (CacheState.mk [] (st.lastResetTimestamp + 86400001)) =
      CacheState.mk [] (st.lastResetTimestamp + 86400001) := by
    unfold checkAndResetCache
    split <;> rfl
  refine ⟨?_, by rw [h1], ?_⟩
  · unfold checkAndResetCache
    split
    · show now - now ≤ 86400000
      omega
    · next h => omega
  · unfold fetchTopStory
    rw [h1, h2]

/-! ### Claim C10 — the fallback clear does not restart the window -/

/-- Claim C10: `fetchTopStory` never changes `lastResetTimestamp` beyond
what the TTL check `checkAndResetCache` itself does — in particular the
exhaustion fallback clears `postedStories` (leaving at most the one id it
re-marks) while the window start stays what the TTL check produced. -/
theorem claim_c10_fallback_frame (fetch : Nat → Option HNStory) (now : Int)
    (st : CacheState) (topStoryIds : List Nat) :
    (fetchTopStory fetch now st topStoryIds).2.lastResetTimestamp =
      (checkAndResetCache now st).lastResetTimestamp ∧
    (fallbackTaken fetch now st topStoryIds = true →
      (fetchTopStory fetch now st topStoryIds).2.postedStories.length ≤ 1) := by
  constructor
  · unfold fetchTopStory
    split
    · rfl
    · split
      · rfl
      · split
        · rfl
        · split
          · rfl
          · rfl
  · intro hfb
    unfold fallbackTaken at hfb
    rw [Bool.and_eq_true, Bool.and_eq_true] at hfb
    obtain ⟨⟨hne, hnone⟩, hpost⟩ := hfb
    rw [Bool.not_eq_true'] at hne hpost
    rw [Option.isNone_iff_eq_none] at hnone
    unfold fetchTopStory
    rw [if_neg (by simp [hne]), hnone]
    rw [if_neg (by simp [hpost])]
    cases hs : scanSecond fetch (topStoryIds.take 10) with
    | none => simp
    | some p =>
      cases p with
      | mk storyId story => simp [markStoryAsPosted]

theorem claim_c10_witness :
    fallbackTaken fetchC3 0 (CacheState.mk [7] 0) [5] = true ∧
    (fetchTopStory fetchC3 0 (CacheState.mk [7] 0) [5]).2.postedStories.length
      ≤ 1 :=
  ⟨by decide,
    (claim_c10_fallback_frame fetchC3 0 (CacheState.mk [7] 0) [5]).2 (by decide)⟩

/-! ### OAuth 1.0a signer — src/unnamed/part_001, `postToTwitter`

`encodeURIComponent`, the default string comparison of
`Array.prototype.sort` (UTF-16 code-unit lexicographic) and the base
string / header assembly are modelled below.  The HMAC-SHA1 signature
value itself is opaque to the claims (it is threaded as an arbitrary
string), so `crypto.subtle` is not modelled. -/

/-- Characters `encodeURIComponent` leaves intact: ASCII alphanumerics
and the marks `- _ . ! ~ * ' ( )` (39 is the apostrophe, 126 the tilde). -/
def isUnreservedURI (c : Char) : Bool :=
  c.isAlpha || c.isDigit || c = '!' || c.toNat = 39 || c = '(' || c = ')' ||
    c = '*' || c = '-' || c = '.' || c = '_' || c.toNat = 126

/-- UTF-8 bytes of a Unicode scalar value, the basis of the `%XX` escape
sequences `encodeURIComponent` produces. -/
def utf8Bytes (c : Char) : List Nat :=
  if c.toNat < 128 then [c.toNat]
  else if c.toNat < 2048 then [192 + c.toNat / 64, 128 + c.toNat % 64]
  else if c.toNat < 65536 then
    [224 + c.toNat / 4096, 128 + (c.toNat / 64) % 64, 128 + c.toNat % 64]
  else
    [240 + c.toNat / 262144, 128 + (c.toNat / 4096) % 64,
      128 + (c.toNat / 64) % 64, 128 + c.toNat % 64]

/-- Upper-case hex digit, as `encodeURIComponent` emits. -/
def hexUpper (n : Nat) : Char :=
  if n < 10 then Char.ofNat (48 + n) else Char.ofNat (55 + n)

/-- Encoding of a single character under `encodeURIComponent`. -/
def percentEncodeChar (c : Char) : List Char :=
  if isUnreservedURI c then [c]
  else (utf8Bytes c).flatMap (fun b => ['%', hexUpper (b / 16), hexUpper (b % 16)])

/-- Model of JavaScript `encodeURIComponent`. -/
def percentEncode (s : String) : String :=
  String.mk (s.data.flatMap percentEncodeChar)

/-- UTF-16 code units of a Unicode scalar value (values at or above
65536 become a surrogate pair). -/
def utf16Units (c : Char) : List Nat :=
  if c.toNat < 65536 then [c.toNat]
  else [55296 + (c.toNat - 65536) / 1024, 56320 + (c.toNat - 65536) % 1024]

/-- The UTF-16 code-unit sequence of a string — what JavaScript string
comparison operates on. -/
def stringUnits (s : String) : List Nat := s.data.flatMap utf16Units

/-- Lexicographic strict order on code-unit sequences. -/
def unitsLt : List Nat → List Nat → Bool
  | _, [] => false
  | [], _ :: _ => true
  | a :: as, b :: bs =>
    if a < b then true else if b < a then false else unitsLt as bs

/-- JavaScript `s < t` on strings: lexicographic comparison of UTF-16
code units — the order `Array.prototype.sort()`'s default comparator
induces on the parameter keys. -/
def jsStringLt (s t : String) : Bool := unitsLt (stringUnits s) (stringUnits t)

/-- Sort relation on `key=value` pairs: `p` may precede `q` whenever
`q.key < p.key` fails. -/
def paramLe (p q : String × String) : Prop := jsStringLt q.1 p.1 = false

instance : DecidableRel paramLe := fun p q =>
  Bool.decEq (jsStringLt q.1 p.1) false

/-- `Object.keys(oauthParams).sort()` restated on the association list: a
comparison sort by key.  Modelled as insertion sort; with all keys
distinct — as in the repository — every comparison sort produces the same
result. -/
def sortParams (params : List (String × String)) : List (String × String) :=
  List.insertionSort paramLe params

/-- One `key=value` entry of the signature base string (line 170–173):
the key verbatim, the value percent-encoded. -/
def basePair (p : String × String) : String :=
  p.1 ++ "=" ++ percentEncode p.2

/-- The signature base string (lines 164–176): `'POST'`, the encoded URL
and the encoded, sorted, `&`-joined parameter pairs, joined by `&`. -/
def signatureBaseString (url : String) (params : List (String × String)) :
    String :=
  String.intercalate "&"
    ["POST", percentEncode url,
      percentEncode (String.intercalate "&" ((sortParams params).map basePair))]

/-- One entry of the authorization header (lines 187–190):
`enc(key)="enc(value)"`. -/
def authPair (p : String × String) : String :=
  percentEncode p.1 ++ "=\"" ++ percentEncode p.2 ++ "\""

/-- The authorization header (lines 186–191).  `Object.keys` here is NOT
sorted: the pairs appear in the object's insertion order. -/
def authHeader (params : List (String × String)) : String :=
  "OAuth " ++ String.intercalate ", " (params.map authPair)

/-- The OAuth parameter object in insertion order (lines 154–161). -/
def oauthParams (consumerKey nonce timestamp accessToken : String) :
    List (String × String) :=
  [("oauth_consumer_key", consumerKey), ("oauth_nonce", nonce),
   ("oauth_signature_method", "HMAC-SHA1"), ("oauth_timestamp", timestamp),
   ("oauth_token", accessToken), ("oauth_version", "1.0")]

/-- The parameter object after `oauthParams.oauth_signature = signature`
(line 183): assigning a fresh property appends its key last. -/
def oauthParamsSigned
    (consumerKey nonce timestamp accessToken signature : String) :
    List (String × String) :=
  oauthParams consumerKey nonce timestamp accessToken ++
    [("oauth_signature", signature)]

/-! #### The JS string order is a linear order -/

theorem unitsLt_asymm (a : List Nat) :
    ∀ b, unitsLt a b = true → unitsLt b a = false := by
  induction a with
  | nil =>
    intro b h
    cases b with
    | nil => simp [unitsLt] at h
    | cons y ys => rfl
  | cons x xs ih =>
    intro b h
    cases b with
    | nil => simp [unitsLt] at h
    | cons y ys =>
      unfold unitsLt at h ⊢
      by_cases hxy : x < y
      · rw [if_neg (by omega), if_pos hxy]
      · by_cases hyx : y < x
        · rw [if_neg hxy, if_pos hyx] at h
          exact absurd h (by simp)
        · rw [if_neg hxy, if_neg hyx] at h
          rw [if_neg hyx, if_neg hxy]
          exact ih ys h

theorem unitsLt_eq_of_not (a : List Nat) :
    ∀ b, unitsLt a b = false → unitsLt b a = false → a = b := by
  induction a with
  | nil =>
    intro b h1 _
    cases b with
    | nil => rfl
    | cons y ys => simp [unitsLt] at h1
  | cons x xs ih =>
    intro b h1 h2
    cases b with
    | nil => simp [unitsLt] at h2
    | cons y ys =>
      unfold unitsLt at h1 h2
      by_cases hxy : x < y
      · rw [if_pos hxy] at h1
        exact absurd h1 (by simp)
      · by_cases hyx : y < x
        · rw [if_pos hyx] at h2
          exact absurd h2 (by simp)
        · rw [if_neg hxy, if_neg hyx] at h1
          rw [if_neg hyx, if_neg hxy] at h2
          have hxey : x = y := by omega
          rw [hxey, ih ys h1 h2]

theorem unitsLt_trans (a : List Nat) :
    ∀ b c, unitsLt a b = true → unitsLt b c = true → unitsLt a c = true := by
  induction a with
  | nil =>
    intro b c h1 h2
    cases c with
    | nil =>
      cases b with
      | nil => simp [unitsLt] at h1
      | cons y ys => simp [unitsLt] at h2
    | cons z zs => rfl
  | cons x xs ih =>
    intro b c h1 h2
    cases b with
    | nil => simp [unitsLt] at h1
    | cons y ys =>
      cases c with
      | nil => simp [unitsLt] at h2
      | cons z zs =>
        unfold unitsLt at h1 h2 ⊢
        by_cases hxy : x < y
        · by_cases hyz : y < z
          · rw [if_pos (by omega)]
          · by_cases hzy : z < y
            · rw [if_neg hyz, if_pos hzy] at h2
              exact absurd h2 (by simp)
            · rw [if_pos (by omega)]
        · by_cases hyx : y < x
          · rw [if_neg hxy, if_pos hyx] at h1
            exact absurd h1 (by simp)
          · rw [if_neg hxy, if_neg hyx] at h1
            by_cases hyz : y < z
            · rw [if_pos (by omega)]
            · by_cases hzy : z < y
              · rw [if_neg hyz, if_pos hzy] at h2
                exact absurd h2 (by simp)
              · rw [if_neg hyz, if_neg hzy] at h2
                rw [if_neg (by omega), if_neg (by omega)]
                exact ih ys zs h1 h2

theorem unitsLe_trans (a b c : List Nat) (h1 : unitsLt b a = false)
    (h2 : unitsLt c b = false) : unitsLt c a = false := by
  cases hca : unitsLt c a with
  | false => rfl
  | true =>
    exfalso
    by_cases hbc : unitsLt b c = true
    · exact absurd (unitsLt_trans b c a hbc hca) (by simp [h1])
    · have hbc2 : b = c :=
        unitsLt_eq_of_not b c (Bool.eq_false_iff.mpr hbc) h2
      rw [← hbc2] at hca
      exact absurd hca (by simp [h1])

/-- Decoder for UTF-16 unit sequences, a left inverse of `utf16Units`,
showing that distinct strings have distinct unit sequences. -/
def decodeUtf16 : List Nat → List Nat
  | [] => []
  | [u] => [u]
  | u :: lo :: rest =>
    if 55296 ≤ u ∧ u ≤ 56319 then
      (65536 + (u - 55296) * 1024 + (lo - 56320)) :: decodeUtf16 rest
    else u :: decodeUtf16 (lo :: rest)

theorem decodeUtf16_flatMap (cs : List Char) :
    decodeUtf16 (cs.flatMap utf16Units) = cs.map Char.toNat := by
  induction cs with
  | nil => rfl
  | cons c rest ih =>
    have hv : c.toNat < 55296 ∨ (57343 < c.toNat ∧ c.toNat < 1114112) :=
      c.valid
    show decodeUtf16 (utf16Units c ++ rest.flatMap utf16Units) =
      c.toNat :: rest.map Char.toNat
    by_cases hbmp : c.toNat < 65536
    · rw [utf16Units, if_pos hbmp]
      cases hL : rest.flatMap utf16Units with
      | nil =>
        show decodeUtf16 [c.toNat] = c.toNat :: rest.map Char.toNat
        rw [← ih, hL]
        rfl
      | cons l0 L =>
        show decodeUtf16 (c.toNat :: l0 :: L) = c.toNat :: rest.map Char.toNat
        rw [decodeUtf16, if_neg (by omega), ← hL, ih]
    · rw [utf16Units, if_neg hbmp]
      show decodeUtf16 ((55296 + (c.toNat - 65536) / 1024) ::
          ((56320 + (c.toNat - 65536) % 1024) :: rest.flatMap utf16Units)) =
        c.toNat :: rest.map Char.toNat
      rw [decodeUtf16, if_pos (by omega)]
      have hhead : 65536 + (55296 + (c.toNat - 65536) / 1024 - 55296) * 1024 +
          (56320 + (c.toNat - 65536) % 1024 - 56320) = c.toNat := by omega
      rw [hhead, ih]

theorem stringUnits_inj (s t : String) (h : stringUnits s = stringUnits t) :
    s = t := by
  have hs := decodeUtf16_flatMap s.data
  have ht := decodeUtf16_flatMap t.data
  unfold stringUnits at h
  rw [h, ht] at hs
  have hdata : s.data = t.data := by
    have hinj : Function.Injective Char.toNat := by
      intro a b hab
      exact Char.ext (UInt32.ext hab)
    exact List.map_injective_iff.mpr hinj hs.symm
  exact String.ext hdata

theorem jsStringLt_eq_of_not (s t : String) (h1 : jsStringLt s t = false)
    (h2 : jsStringLt t s = false) : s = t :=
  stringUnits_inj s t (unitsLt_eq_of_not _ _ h1 h2)

instance : IsTotal (String × String) paramLe := ⟨fun p q => by
  unfold paramLe jsStringLt
  cases hb : unitsLt (stringUnits q.1) (stringUnits p.1) with
  | false => exact Or.inl rfl
  | true => exact Or.inr (unitsLt_asymm _ _ hb)⟩

instance : IsTrans (String × String) paramLe :=
  ⟨fun _ _ _ h1 h2 => unitsLe_trans _ _ _ h1 h2⟩

/-- Strict key order on `key=value` pairs. -/
def paramLt (p q : String × String) : Prop := jsStringLt p.1 q.1 = true

instance : IsAntisymm (String × String) paramLt := ⟨fun p q h1 h2 => by
  unfold paramLt jsStringLt at h1 h2
  rw [unitsLt_asymm _ _ h1] at h2
  simp at h2⟩

theorem sortParams_sorted (params : List (String × String)) :
    List.Sorted paramLe (sortParams params) :=
  List.sorted_insertionSort paramLe params

theorem sortParams_perm (params : List (String × String)) :
    List.Perm (sortParams params) params :=
  List.perm_insertionSort paramLe params

theorem sorted_paramLt_of_sorted (l : List (String × String))
    (hs : List.Sorted paramLe l) (hn : (l.map Prod.fst).Nodup) :
    List.Pairwise paramLt l := by
  have hpn : List.Pairwise (fun p q : String × String => p.1 ≠ q.1) l :=
    List.pairwise_map.mp hn
  refine (hs.and hpn).imp ?_
  intro a b hab
  cases hlt : jsStringLt a.1 b.1 with
  | true => exact hlt
  | false => exact absurd (jsStringLt_eq_of_not _ _ hlt hab.1) hab.2

theorem sortParams_eq_of_perm (p1 p2 : List (String × String))
    (hn : (p1.map Prod.fst).Nodup) (hp : List.Perm p1 p2) :
    sortParams p1 = sortParams p2 := by
  have hn1 : ((sortParams p1).map Prod.fst).Nodup :=
    (((sortParams_perm p1).map Prod.fst).nodup_iff).mpr hn
  have hn2 : ((sortParams p2).map Prod.fst).Nodup :=
    (((sortParams_perm p2).map Prod.fst).nodup_iff).mpr
      (((hp.map Prod.fst).nodup_iff).mp hn)
  exact List.eq_of_perm_of_sorted
    ((sortParams_perm p1).trans (hp.trans (sortParams_perm p2).symm))
    (sorted_paramLt_of_sorted _ (sortParams_sorted p1) hn1)
    (sorted_paramLt_of_sorted _ (sortParams_sorted p2) hn2)

/-! ### Claim C4 — the signature base string -/

/-- Claim C4: the signature base string construction is deterministic and
independent of the order the parameters were supplied in (for parameter
sets with distinct keys, as any OAuth parameter object has), and the
output parameter ordering is always strictly lexicographic by key. -/
theorem claim_c4_base_string (url : String) (p1 p2 : List (String × String))
    (hn : (p1.map Prod.fst).Nodup) (hp : List.Perm p1 p2) :
    signatureBaseString url p1 = signatureBaseString url p2 ∧
    List.Pairwise paramLt (sortParams p1) := by
  constructor
  · unfold signatureBaseString
    rw [sortParams_eq_of_perm p1 p2 hn hp]
  · exact sorted_paramLt_of_sorted _ (sortParams_sorted p1)
      ((((sortParams_perm p1).map Prod.fst).nodup_iff).mpr hn)

theorem claim_c4_witness :
    ((([("b", "2"), ("a", "1")] : List (String × String)).map Prod.fst).Nodup) ∧
    signatureBaseString "https://api.twitter.com/2/tweets"
        [("b", "2"), ("a", "1")] =
      signatureBaseString "https://api.twitter.com/2/tweets"
        [("a", "1"), ("b", "2")] :=
  ⟨by decide,
    (claim_c4_base_string "https://api.twitter.com/2/tweets"
      [("b", "2"), ("a", "1")] [("a", "1"), ("b", "2")] (by decide)
      (List.Perm.swap ("a", "1") ("b", "2") [])).1⟩

/-! ### Claim C2 — the authorization header order -/

/-- Claim C2 is false on the code: the base string sorts the keys (line
169) but the header (lines 186–191) walks `Object.keys` unsorted, i.e. in
insertion order, which places `oauth_signature` last — sorted order would
place it before `oauth_signature_method`.  At concrete credentials the
produced header differs from the claimed sorted-order header, and the key
sequences differ. -/
theorem claim_c2_counterexample :
    authHeader (oauthParamsSigned "a" "b" "c" "d" "e") ≠
      "OAuth " ++ String.intercalate ", "
        ((sortParams (oauthParamsSigned "a" "b" "c" "d" "e")).map authPair) ∧
    (oauthParamsSigned "a" "b" "c" "d" "e").map Prod.fst ≠
      (sortParams (oauthParamsSigned "a" "b" "c" "d" "e")).map Prod.fst := by
  constructor
  · decide
  · decide

/-- Claim C2 (amended): the header is `OAuth ` followed by comma-joined
`enc(key)="enc(value)"` pairs in the object's insertion order — the six
base-string parameters (which among themselves happen to already be in
lexicographic order) followed by `oauth_signature` appended last.  The
full sequence is not lexicographic: sorted order would place
`oauth_signature` third, before `oauth_signature_method`. -/
theorem claim_c2_amended (ck nonce ts tok sig : String) :
    authHeader (oauthParamsSigned ck nonce ts tok sig) =
      "OAuth " ++ String.intercalate ", "
        ((oauthParams ck nonce ts tok ++ [("oauth_signature", sig)]).map
          authPair) ∧
    (oauthParamsSigned ck nonce ts tok sig).map Prod.fst =
      ["oauth_consumer_key", "oauth_nonce", "oauth_signature_method",
       "oauth_timestamp", "oauth_token", "oauth_version", "oauth_signature"] ∧
    (sortParams (oauthParamsSigned ck nonce ts tok sig)).map Prod.fst =
      ["oauth_consumer_key", "oauth_nonce", "oauth_signature",
       "oauth_signature_method", "oauth_timestamp", "oauth_token",
       "oauth_version"] :=
  ⟨rfl, rfl, rfl⟩

/-! ### AI-reply parsing — src/unnamed/part_001, `parseTweet`

`parseTweet` first runs `JSON.parse` on the raw model reply and evaluates
`parsedRes.tweet || parsedRes.toString()`; when the parse (or the property
access, for a `null` result) throws, it strips the code-fence markers with
`res.replace(/```json|```/g, "").trim()` and retries, returning the bare
`.tweet` property (which may be `undefined`); if that also throws it
returns `undefined`.

`JSON.parse` is modelled as a fuel-based recursive-descent parser of the
JSON grammar producing a `JsValue`; JavaScript values reachable from
`JSON.parse` are `null`, booleans, numbers, strings, arrays and plain
objects.  Numbers keep their literal parts (sign, integer digits,
fraction digits, exponent): the claims only evaluate `toString()` on
integral values, whose JavaScript rendering (plain decimal digits) is
modelled exactly; the double-rounding and formatting of non-integral
literals is not modelled bit-exactly.  Lone surrogate `\u` escapes,
which JavaScript strings accommodate but Lean `Char` cannot, are rejected
by the model; no claim involves them. -/

inductive JsValue where
  | null : JsValue
  | bool (b : Bool) : JsValue
  | num (neg : Bool) (intPart : Nat) (frac : List Nat) (exp : Int) : JsValue
  | str (s : String) : JsValue
  | arr (elems : List JsValue) : JsValue
  | obj (fields : List (String × JsValue)) : JsValue

def skipWs : List Char → List Char
  | [] => []
  | c :: cs =>
    if c = ' ' ∨ c = '\t' ∨ c = '\n' ∨ c = '\r' then skipWs cs else c :: cs

def hexVal (c : Char) : Option Nat :=
  if '0' ≤ c ∧ c ≤ '9' then some (c.toNat - 48)
  else if 'a' ≤ c ∧ c ≤ 'f' then some (c.toNat - 87)
  else if 'A' ≤ c ∧ c ≤ 'F' then some (c.toNat - 55)
  else none

def parseJString : Nat → List Char → Option (List Char × List Char)
  | 0, _ => none
  | _, [] => none
  | fuel+1, c :: cs =>
    if c = '"' then some ([], cs)
    else if c = '\\' then
      match cs with
      | [] => none
      | e :: cs2 =>
        if e = '"' ∨ e = '\\' ∨ e = '/' then
          (parseJString fuel cs2).map (fun p => (e :: p.1, p.2))
        else if e = 'b' then
          (parseJString fuel cs2).map (fun p => (Char.ofNat 8 :: p.1, p.2))
        else if e = 'f' then
          (parseJString fuel cs2).map (fun p => (Char.ofNat 12 :: p.1, p.2))
        else if e = 'n' then
          (parseJString fuel cs2).map (fun p => (Char.ofNat 10 :: p.1, p.2))
        else if e = 'r' then
          (parseJString fuel cs2).map (fun p => (Char.ofNat 13 :: p.1, p.2))
        else if e = 't' then
          (parseJString fuel cs2).map (fun p => (Char.ofNat 9 :: p.1, p.2))
        else if e = 'u' then
          match cs2 with
          | h1 :: h2 :: h3 :: h4 :: cs3 =>
            match hexVal h1, hexVal h2, hexVal h3, hexVal h4 with
            | some a, some b2, some c2, some d =>
              let n := 4096 * a + 256 * b2 + 16 * c2 + d
              if 55296 ≤ n ∧ n ≤ 56319 then
                match cs3 with
                | e2 :: u2 :: g1 :: g2 :: g3 :: g4 :: cs4 =>
                  if e2 = '\\' ∧ u2 = 'u' then
                    match hexVal g1, hexVal g2, hexVal g3, hexVal g4 with
                    | some a2, some b3, some c3, some d2 =>
                      let m := 4096 * a2 + 256 * b3 + 16 * c3 + d2
                      if 56320 ≤ m ∧ m ≤ 57343 then
                        (parseJString fuel cs4).map (fun p =>
                          (Char.ofNat (65536 + (n - 55296) * 1024 + (m - 56320))
                            :: p.1, p.2))
                      else none
                    | _, _, _, _ => none
                  else none
                | _ => none
              else if 56320 ≤ n ∧ n ≤ 57343 then none
              else (parseJString fuel cs3).map (fun p => (Char.ofNat n :: p.1, p.2))
            | _, _, _, _ => none
          | _ => none
        else none
    else if c.toNat < 32 then none
    else (parseJString fuel cs).map (fun p => (c :: p.1, p.2))

def digitsVal (ds : List Char) : Nat :=
  ds.foldl (fun n c => 10 * n + (c.toNat - 48)) 0

def parseFrac : List Char → Option (List Nat × List Char)
  | [] => some ([], [])
  | c :: r =>
    if c = '.' then
      let ds := r.takeWhile Char.isDigit
      if ds.isEmpty then none
      else some (ds.map (fun d => d.toNat - 48), r.dropWhile Char.isDigit)
    else some ([], c :: r)

def parseExp : List Char → Option (Int × List Char)
  | [] => some (0, [])
  | c :: r =>
    if c = 'e' ∨ c = 'E' then
      match r with
      | s :: r2 =>
        if s = '+' then
          let ds := r2.takeWhile Char.isDigit
          if ds.isEmpty then none
          else some (Int.ofNat (digitsVal ds), r2.dropWhile Char.isDigit)
        else if s = '-' then
          let ds := r2.takeWhile Char.isDigit
          if ds.isEmpty then none
          else some (-(Int.ofNat (digitsVal ds)), r2.dropWhile Char.isDigit)
        else
          let ds := r.takeWhile Char.isDigit
          if ds.isEmpty then none
          else some (Int.ofNat (digitsVal ds), r.dropWhile Char.isDigit)
      | [] => none
    else some (0, c :: r)

def parseNumber (cs : List Char) : Option (JsValue × List Char) :=
  let (neg, cs1) :=
    match cs with
    | c :: r => if c = '-' then (true, r) else (false, cs)
    | [] => (false, cs)
  match cs1 with
  | c :: r =>
    if c = '0' then
      match parseFrac r with
      | none => none
      | some (fr, r2) =>
        match parseExp r2 with
        | none => none
        | some (ex, r3) => some (JsValue.num neg 0 fr ex, r3)
    else if c.isDigit then
      let ds := c :: r.takeWhile Char.isDigit
      match parseFrac (r.dropWhile Char.isDigit) with
      | none => none
      | some (fr, r2) =>
        match parseExp r2 with
        | none => none
        | some (ex, r3) => some (JsValue.num neg (digitsVal ds) fr ex, r3)
    else none
  | [] => none

mutual

def parseValue : Nat → List Char → Option (JsValue × List Char)
  | 0, _ => none
  | fuel+1, cs =>
    match skipWs cs with
    | [] => none
    | c :: rest =>
      if c = 'n' then
        match rest with
        | 'u' :: 'l' :: 'l' :: r => some (JsValue.null, r)
        | _ => none
      else if c = 't' then
        match rest with
        | 'r' :: 'u' :: 'e' :: r => some (JsValue.bool true, r)
        | _ => none
      else if c = 'f' then
        match rest with
        | 'a' :: 'l' :: 's' :: 'e' :: r => some (JsValue.bool false, r)
        | _ => none
      else if c = '"' then
        (parseJString (rest.length + 1) rest).map
          (fun p => (JsValue.str (String.mk p.1), p.2))
      else if c = '[' then
        match skipWs rest with
        | c2 :: r2 =>
          if c2 = ']' then some (JsValue.arr [], r2)
          else parseArrayRest fuel (c2 :: r2) []
        | [] => none
      else if c = Char.ofNat 123 then
        match skipWs rest with
        | c2 :: r2 =>
          if c2 = Char.ofNat 125 then some (JsValue.obj [], r2)
          else parseObjectRest fuel (c2 :: r2) []
        | [] => none
      else if c = '-' ∨ c.isDigit then parseNumber (c :: rest)
      else none

def parseArrayRest : Nat → List Char → List JsValue → Option (JsValue × List Char)
  | 0, _, _ => none
  | fuel+1, cs, acc =>
    match parseValue fuel cs with
    | none => none
    | some (v, r) =>
      match skipWs r with
      | c :: r2 =>
        if c = ',' then parseArrayRest fuel r2 (acc ++ [v])
        else if c = ']' then some (JsValue.arr (acc ++ [v]), r2)
        else none
      | [] => none

def parseObjectRest : Nat → List Char → List (String × JsValue) →
    Option (JsValue × List Char)
  | 0, _, _ => none
  | fuel+1, cs, acc =>
    match skipWs cs with
    | c :: r =>
      if c = '"' then
        match parseJString (r.length + 1) r with
        | none => none
        | some (key, r2) =>
          match skipWs r2 with
          | c2 :: r3 =>
            if c2 = ':' then
              match parseValue fuel r3 with
              | none => none
              | some (v, r4) =>
                match skipWs r4 with
                | c3 :: r5 =>
                  if c3 = ',' then
                    parseObjectRest fuel r5 (acc ++ [(String.mk key, v)])
                  else if c3 = Char.ofNat 125 then
                    some (JsValue.obj (acc ++ [(String.mk key, v)]), r5)
                  else none
                | [] => none
            else none
          | [] => none
      else none
    | [] => none

end

def jsonParse (s : String) : Option JsValue :=
  match parseValue (2 * s.data.length + 2) s.data with
  | some (v, rest) => if (skipWs rest).isEmpty then some v else none
  | none => none

def jsTruthy : JsValue → Bool
  | JsValue.null => false
  | JsValue.bool b => b
  | JsValue.num _ ip fr _ => ip ≠ 0 || fr.any (fun d => d ≠ 0)
  | JsValue.str s => s ≠ ""
  | JsValue.arr _ => true
  | JsValue.obj _ => true

def fracTrim (frac : List Nat) : List Nat :=
  (frac.reverse.dropWhile (fun d => d = 0)).reverse

def jsNumToString (neg : Bool) (ip : Nat) (frac : List Nat) (ex : Int) : String :=
  let fr := fracTrim frac
  let sign := if neg ∧ (ip ≠ 0 ∨ fr ≠ []) then "-" else ""
  if fr.isEmpty ∧ ex = 0 then sign ++ toString ip
  else
    sign ++ toString ip ++
      (if fr.isEmpty then "" else
        "." ++ String.mk (fr.map (fun d => Char.ofNat (48 + d)))) ++
      (if ex = 0 then "" else "e" ++ toString ex)

mutual

def jsToString : JsValue → String
  | JsValue.null => ""
  | JsValue.bool b => if b then "true" else "false"
  | JsValue.num neg ip fr ex => jsNumToString neg ip fr ex
  | JsValue.str s => s
  | JsValue.arr xs => String.intercalate "," (jsToStringList xs)
  | JsValue.obj _ => "[object Object]"

def jsToStringList : List JsValue → List String
  | [] => []
  | v :: vs => jsToString v :: jsToStringList vs

end

def lookupField (fields : List (String × JsValue)) (key : String) :
    Option JsValue :=
  fields.foldl (fun acc p => if p.1 = key then some p.2 else acc) none

def jsGetTweet : JsValue → Option (Option JsValue)
  | JsValue.null => none
  | JsValue.obj fields => some (lookupField fields "tweet")
  | _ => some none

def stripFencesF : Nat → List Char → List Char
  | 0, cs => cs
  | _, [] => []
  | fuel+1, c :: rest =>
    if c.toNat = 96 then
      match rest with
      | c2 :: c3 :: r2 =>
        if c2.toNat = 96 ∧ c3.toNat = 96 then
          match r2 with
          | 'j' :: 's' :: 'o' :: 'n' :: r3 => stripFencesF fuel r3
          | _ => stripFencesF fuel r2
        else c :: stripFencesF fuel rest
      | _ => c :: stripFencesF fuel rest
    else c :: stripFencesF fuel rest

def stripFences (cs : List Char) : List Char :=
  stripFencesF (cs.length + 1) cs

def jsIsSpace (c : Char) : Bool :=
  c = ' ' || c = '\t' || c = '\n' || c = '\r' || c.toNat = 11 || c.toNat = 12 ||
    c.toNat = 160 || c.toNat = 65279

def jsTrim (s : String) : String :=
  String.mk (((s.data.dropWhile jsIsSpace).reverse.dropWhile jsIsSpace).reverse)

def parseTweetFallback (res : String) : Option JsValue :=
  match jsonParse (jsTrim (String.mk (stripFences res.data))) with
  | none => none
  | some v =>
    match jsGetTweet v with
    | none => none
    | some t => t

def parseTweet (res : String) : Option JsValue :=
  match jsonParse res with
  | none => parseTweetFallback res
  | some v =>
    match jsGetTweet v with
    | none => parseTweetFallback res
    | some (some t) =>
      if jsTruthy t then some t else some (JsValue.str (jsToString v))
    | some none => some (JsValue.str (jsToString v))

/-! ### Claim C7 — parseTweet on the three specified inputs -/

/-- Claim C7: `parseTweet` on the exact reply `{"tweet":"hi"}` yields
`"hi"`; on the same JSON wrapped in ```json fences it strips the fences,
reparses and also yields `"hi"`; on `not json`, where both parse attempts
fail, it signals no content by returning `undefined` (modelled `none`). -/
theorem claim_c7_parse_examples :
    parseTweet "\x7b\"tweet\":\"hi\"\x7d" = some (JsValue.str "hi") ∧
    parseTweet "```json\n\x7b\"tweet\":\"hi\"\x7d\n```" =
      some (JsValue.str "hi") ∧
    parseTweet "not json" = none :=
  ⟨rfl, rfl, rfl⟩

/-! ### Claim C9 — the toString fallback for truthy-tweet-less JSON -/

/-- Claim C9 is false as universally stated: the input `null` parses as
valid JSON and its value has no truthy `tweet` field, yet `parseTweet`
returns no content (`null.tweet` throws, and the fallback re-parse throws
again at the same property access) instead of a stringified value. -/
theorem claim_c9_counterexample :
    jsonParse "null" = some JsValue.null ∧
    parseTweet "null" = none ∧
    parseTweet "null" ≠ some (JsValue.str (jsToString JsValue.null)) := by
  refine ⟨rfl, rfl, ?_⟩
  intro h
  rw [show parseTweet "null" = none from rfl] at h
  exact Option.noConfusion h

/-- Claim C9 (amended): for every input that parses as valid JSON whose
value is non-null and has no truthy `tweet` field, `parseTweet` does not
signal no-content: it returns the stringified parsed value via the
`parsedRes.toString()` fallback (for a plain object the string
`[object Object]`, for the number literal `123` the string `123`). -/
theorem claim_c9_amended (s : String) (v : JsValue)
    (hp : jsonParse s = some v) (hnn : v ≠ JsValue.null)
    (hnt : ∀ t, jsGetTweet v = some (some t) → jsTruthy t = false) :
    parseTweet s = some (JsValue.str (jsToString v)) := by
  have hex : ∃ w, jsGetTweet v = some w := by
    cases v with
    | null => exact absurd rfl hnn
    | bool b => exact ⟨none, rfl⟩
    | num a b c d => exact ⟨none, rfl⟩
    | str s2 => exact ⟨none, rfl⟩
    | arr xs => exact ⟨none, rfl⟩
    | obj fs => exact ⟨lookupField fs "tweet", rfl⟩
  unfold parseTweet
  rw [hp]
  obtain ⟨w, hw⟩ := hex
  show (match jsGetTweet v with
    | none => parseTweetFallback s
    | some (some t) =>
      if jsTruthy t = true then some t else some (JsValue.str (jsToString v))
    | some none => some (JsValue.str (jsToString v))) =
    some (JsValue.str (jsToString v))
  rw [hw]
  cases w with
  | none => rfl
  | some t =>
    show (if jsTruthy t = true then some t
          else some (JsValue.str (jsToString v))) =
      some (JsValue.str (jsToString v))
    rw [hnt t hw]
    simp

theorem claim_c9_witness :
    jsonParse "123" = some (JsValue.num false 123 [] 0) ∧
    parseTweet "123" = some (JsValue.str "123") :=
  ⟨rfl,
    claim_c9_amended "123" (JsValue.num false 123 [] 0) rfl
      (fun h => JsValue.noConfusion h)
      (fun t ht => by simp [jsGetTweet] at ht)⟩

/-! ### Publisher — src/unnamed/part_001, `postTweet`

`postTweet` posts to Twitter when `env.TWITTER_CONSUMER_KEY` is truthy,
then always attempts Telegram, and returns whether at least one surface
succeeded; every failure path inside the two senders is caught and
returned as `false`.  The network outcomes (the `response.ok` of each
surface, with a thrown fetch error counting as failure) are abstracted as
Bool oracles; the posted text does not influence any outcome, so it is
not threaded. -/

structure WorkerEnv where
  TWITTER_CONSUMER_KEY : Option String
  TWITTER_CONSUMER_SECRET : Option String
  TWITTER_ACCESS_TOKEN : Option String
  TWITTER_ACCESS_SECRET : Option String
  TG_BOT_TOKEN : Option String
  TG_CHAT_ID : Option String
deriving DecidableEq

/-- JavaScript truthiness of an optional environment string: present and
non-empty (`undefined` and `""` are falsy). -/
def isTruthy : Option String → Bool
  | some s => s ≠ ""
  | none => false

/-- The guard of `postToTwitter` (line 135): all four credentials must be
truthy, otherwise it returns `false` before building the signature. -/
def twitterCredsPresent (env : WorkerEnv) : Bool :=
  isTruthy env.TWITTER_CONSUMER_KEY && isTruthy env.TWITTER_CONSUMER_SECRET &&
    isTruthy env.TWITTER_ACCESS_TOKEN && isTruthy env.TWITTER_ACCESS_SECRET

/-- `postToTwitter` (lines 126–215): `false` when a credential is
missing (before signing); otherwise the outcome of the signed POST. -/
def postToTwitter (env : WorkerEnv) (networkOk : Bool) : Bool :=
  if twitterCredsPresent env then networkOk else false

/-- `sendTelegramMessage` (lines 68–107): `false` when the bot token or
chat id is missing, otherwise the outcome of the POST. -/
def sendTelegramMessage (env : WorkerEnv) (networkOk : Bool) : Bool :=
  if isTruthy env.TG_BOT_TOKEN && isTruthy env.TG_CHAT_ID then networkOk
  else false

/-- The Twitter surface outcome as `postTweet` sees it (lines 253–261):
attempted only when `TWITTER_CONSUMER_KEY` is truthy; not attempting
counts as not delivered. -/
def twitterAttempt (env : WorkerEnv) (networkOk : Bool) : Bool :=
  if isTruthy env.TWITTER_CONSUMER_KEY then postToTwitter env networkOk
  else false

/-- `postTweet` (lines 248–275): `success` becomes true if the Twitter
attempt reported true, then Telegram is always attempted and can also set
it; the escaping and prefixing of the Telegram text do not affect the
outcome. -/
def postTweet (env : WorkerEnv) (twitterOk telegramOk : Bool) : Bool :=
  twitterAttempt env twitterOk || sendTelegramMessage env telegramOk

/-! ### Claim C8 — publish is the OR of the two surfaces -/

/-- Claim C8: `postTweet` returns true exactly when at least one of the
two surface outcomes is true, and any missing Twitter credential makes
that surface abort before signing with outcome `false` — independent of
the network — without preventing the Telegram attempt (the result then
equals the Telegram outcome alone). -/
theorem claim_c8_publish_or (env : WorkerEnv) (twitterOk telegramOk : Bool) :
    (postTweet env twitterOk telegramOk = true ↔
      (twitterAttempt env twitterOk = true ∨
        sendTelegramMessage env telegramOk = true)) ∧
    (twitterCredsPresent env = false →
      twitterAttempt env twitterOk = false ∧
      postTweet env twitterOk telegramOk =
        sendTelegramMessage env telegramOk) := by
  constructor
  · unfold postTweet
    exact (Bool.or_eq_true _ _).to_iff
  · intro hmiss
    have hatt : twitterAttempt env twitterOk = false := by
      unfold twitterAttempt postToTwitter
      rw [hmiss]
      split <;> rfl
    refine ⟨hatt, ?_⟩
    unfold postTweet
    rw [hatt, Bool.false_or]

/-- A concrete environment with the consumer secret missing. -/
def envMissingSecret : WorkerEnv :=
  WorkerEnv.mk (some "k") none (some "t") (some "s") (some "b") (some "c")

theorem claim_c8_witness :
    twitterCredsPresent envMissingSecret = false ∧
    twitterAttempt envMissingSecret true = false ∧
    postTweet envMissingSecret true true =
      sendTelegramMessage envMissingSecret true :=
  ⟨by decide,
    ((claim_c8_publish_or envMissingSecret true true).2 (by decide)).1,
    ((claim_c8_publish_or envMissingSecret true true).2 (by decide)).2⟩

end HonoCron
